import Mathlib

/-!
Verification development for the TubeTracks batch downloader.

The definitions below are a shallow embedding of the two source files
`tubetracks_gui.py` (the Tk batch worker and result handling) and
`plugins/youtube.py` (the yt-dlp wrapper plugin).  Pure helpers are
translated directly; the effectful yt-dlp invocations and the worker's
per-URL backend call are abstracted as oracle inputs describing the
outcome of each attempt, and the worker's queue traffic is reified as a
list of messages.  Types declared in the backend module `downloader.py`
(not part of the sources) are modelled from the specification and marked
as such.
-/

/-! ## String utilities (Python `in` and `.lower()` over ASCII text) -/

/-- Bool-valued infix test on character lists: does `pat` occur contiguously
inside `s`?  Mirrors Python's `pat in s` on strings. -/
def listIsInfixOf (pat : List Char) : List Char → Bool
  | [] => pat.isEmpty
  | c :: rest => pat.isPrefixOf (c :: rest) || listIsInfixOf pat rest

/-- Python `pat in s` for strings. -/
def strContains (s pat : String) : Bool :=
  listIsInfixOf pat.data s.data

/-- Python `s.lower()` (ASCII case folding, the only case relevant to the
error messages being classified). -/
def strLower (s : String) : String :=
  String.mk (s.data.map Char.toLower)

/-! ## `plugins/youtube.py`: `_strip_ansi`

The source removes every match of the regular expression
`\x1b\[[0-9;]*m` (SGR color sequences) via `re.sub`, with the usual
leftmost, non-overlapping match semantics.  The embedding implements the
same substitution as a single left-to-right scan: `AnsiState` records how
much of a candidate escape sequence has been seen; a completed sequence is
dropped, an aborted candidate is flushed back to the output verbatim.
Since parameter characters `[0-9;]` never contain `\x1b`, an aborted
candidate cannot itself contain the start of a later match, so the scan
computes exactly the `re.sub` result. -/

/-- Characters allowed in the parameter part of an SGR sequence (`[0-9;]`). -/
def isAnsiParamChar (c : Char) : Bool :=
  c.isDigit || c = ';'

/-- Scanner state while looking for `\x1b\[[0-9;]*m`. -/
inductive AnsiState where
  | normal : AnsiState
  | sawEsc : AnsiState
  | inSeq : List Char → AnsiState
deriving DecidableEq

/-- One scanner step: next state and the characters emitted to the output. -/
def ansiStep : AnsiState → Char → AnsiState × List Char
  | .normal, c => if c = '\x1b' then (.sawEsc, []) else (.normal, [c])
  | .sawEsc, c =>
    if c = '[' then (.inSeq [], [])
    else if c = '\x1b' then (.sawEsc, ['\x1b'])
    else (.normal, ['\x1b', c])
  | .inSeq ps, c =>
    if isAnsiParamChar c then (.inSeq (ps ++ [c]), [])
    else if c = 'm' then (.normal, [])
    else if c = '\x1b' then (.sawEsc, '\x1b' :: '[' :: ps)
    else (.normal, '\x1b' :: '[' :: ps ++ [c])

/-- Characters held by a pending candidate sequence at end of input. -/
def ansiFlush : AnsiState → List Char
  | .normal => []
  | .sawEsc => ['\x1b']
  | .inSeq ps => '\x1b' :: '[' :: ps

/-- Run the scanner over the whole input. -/
def ansiRun : AnsiState → List Char → List Char
  | st, [] => ansiFlush st
  | st, c :: rest =>
    let step := ansiStep st c
    step.2 ++ ansiRun step.1 rest

/-- `_strip_ansi`: remove ANSI color codes from error strings. -/
def strip_ansi (text : String) : String :=
  String.mk (ansiRun .normal text.data)

/-! ## `plugins/youtube.py`: `_is_forbidden_error` -/

/-- `_is_forbidden_error`: detect YouTube 403 blocks that benefit from
fallback settings. -/
def is_forbidden_error (message : String) : Bool :=
  let msg := strLower message
  strContains msg "http error 403"
    || strContains msg "403: forbidden"
    || strContains msg "unable to download video data"
    || (strContains msg "http error" && strContains msg "forbidden")

/-! ## `plugins/youtube.py`: `_merge_ydl_opts`

Python dictionaries are embedded as insertion-ordered association lists;
a well-formed dictionary has pairwise-distinct keys (`YDict` values built
from Python dict literals always do). -/

/-- A yt-dlp option value: an opaque scalar, a list of strings, or a nested
dictionary. -/
inductive YVal where
  | str : String → YVal
  | strList : List String → YVal
  | dict : List (String × YVal) → YVal

/-- A Python dictionary of yt-dlp options. -/
abbrev YDict := List (String × YVal)

/-- Python `d.get(key)`: first binding of `key`, if any. -/
def lookupKey : YDict → String → Option YVal
  | [], _ => none
  | (k, v) :: rest, key => if k = key then some v else lookupKey rest key

/-- Python `d[key] = v`: replace the binding in place, or append a new one. -/
def setKey : YDict → String → YVal → YDict
  | [], key, v => [(key, v)]
  | (k, w) :: rest, key, v =>
    if k = key then (key, v) :: rest else (k, w) :: setKey rest key v

/-- Python `{**base, **extra}`: apply every binding of `extra` over `base`. -/
def updateAll (base extra : YDict) : YDict :=
  extra.foldl (fun acc kv => setKey acc kv.1 kv.2) base

/-- One iteration of the `_merge_ydl_opts` loop body for the binding
`(key, value)` of `extra`. -/
def mergeStep (merged : YDict) (key : String) (value : YVal) : YDict :=
  if key = "extractor_args" ∨ key = "http_headers" then
    match value, lookupKey merged key with
    | .dict e2, some (.dict e1) => setKey merged key (.dict (updateAll e1 e2))
    | _, _ => setKey merged key value
  else setKey merged key value

/-- `_merge_ydl_opts`: merge nested yt-dlp options (headers/extractor_args)
safely. -/
def merge_ydl_opts (base extra : YDict) : YDict :=
  extra.foldl (fun merged kv => mergeStep merged kv.1 kv.2) base

/-- The value `merge_ydl_opts` stores at `key` when `extra` binds
`key ↦ value`, expressed against the base dictionary. -/
def mergeStepVal (base : YDict) (key : String) (value : YVal) : YVal :=
  if key = "extractor_args" ∨ key = "http_headers" then
    match value, lookupKey base key with
    | .dict e2, some (.dict e1) => .dict (updateAll e1 e2)
    | _, _ => value
  else value

/-- `FALLBACK_HTTP_HEADERS` from the plugin. -/
def fallbackHttpHeaders : YDict :=
  [("User-Agent", .str ("Mozilla/5.0 (Windows NT 10.0; Win64; x64) AppleWebKit/537.36 "
      ++ "(KHTML, like Gecko) Chrome/120.0.0.0 Safari/537.36")),
   ("Accept-Language", .str "en-US,en;q=0.9"),
   ("Referer", .str "https://www.youtube.com/")]

/-- The overlay dictionary passed to `_merge_ydl_opts` by
`YouTubeConverter.download` when escalating to the fallback profile. -/
def fallbackOverlay : YDict :=
  [("extractor_args", .dict [("youtube", .dict [("player_client", .strList ["android", "web"])])]),
   ("http_headers", .dict fallbackHttpHeaders)]

/-! ## `plugins/youtube.py`: `YouTubeConverter.download`

The two `ydl.download([url])` invocations are effectful; each is
abstracted by an `AttemptResult` oracle describing what the call did:
whether it raised (and with which message, as `str(e)`), whether any
`finished` progress hook fired during it, and the filename recorded by the
last such hook.  The nonlocal variables `downloaded_file` and
`any_downloaded` persist across the primary and fallback attempts exactly
as in the source.  The returned trace lists which request profiles were
attempted, in order. -/

/-- Outcome of one `ydl.download([url])` call, as observed by the
surrounding code and its progress hook. -/
structure AttemptResult where
  raised : Option String
  anyFinished : Bool
  lastFile : Option String
deriving DecidableEq

/-- Which option profile an attempt used. -/
inductive AttemptProfile where
  | primary : AttemptProfile
  | fallback : AttemptProfile
deriving DecidableEq, BEq

/-- The skip message returned when no new files were downloaded. -/
def skippedMessage : String :=
  "Skipped: no new files downloaded (already exists or in archive)."

/-- The remediation hint appended to surviving 403-class failures. -/
def forbiddenHint : String :=
  "Hint: YouTube blocked the request (HTTP 403). Try providing a cookies file or updating yt-dlp."

/-- `YouTubeConverter.download`, from the first `ydl.download` call on:
returns the `(success, output_file, error_message)` triple together with
the trace of attempted profiles. -/
def download (first second : AttemptResult) :
    (Bool × Option String × Option String) × List AttemptProfile :=
  let any1 := first.anyFinished
  let file1 := if first.anyFinished then first.lastFile else none
  match first.raised with
  | none =>
    if any1 = false then ((false, none, some skippedMessage), [.primary])
    else ((true, file1, none), [.primary])
  | some e =>
    let errorMessage := strip_ansi e
    if is_forbidden_error errorMessage then
      let any2 := any1 || second.anyFinished
      let file2 := if second.anyFinished then second.lastFile else file1
      match second.raised with
      | none =>
        if any2 = false then ((false, none, some skippedMessage), [.primary, .fallback])
        else ((true, file2, none), [.primary, .fallback])
      | some fe =>
        let fallbackMessage := strip_ansi fe
        let fallbackMessage' :=
          if is_forbidden_error fallbackMessage then
            fallbackMessage ++ " (" ++ forbiddenHint ++ ")"
          else fallbackMessage
        ((false, none, some ("YouTube download failed: " ++ fallbackMessage')), [.primary, .fallback])
    else ((false, none, some ("YouTube download failed: " ++ errorMessage)), [.primary])

/-! ## `plugins/youtube.py`: URL patterns, `can_handle`, `validate_url`

The plugin matches each pattern with `re.match(pattern, url,
re.IGNORECASE)`, i.e. against a prefix of the string.  The five patterns
use only literals, the optional group `(www\.)?`, the optional letter
`s?` and the one-or-more class `[\w-]+`, so the embedding uses a small
regex syntax with exactly those constructs and a backtracking matcher
returning every possible rest-of-input.  The character-level semantics of
the external `re` engine — which input character matches a given literal
under IGNORECASE, and which characters the Unicode-aware class `\w`
holds — is table-driven behavior of the Python runtime (its Unicode case
equivalences and word-character tables), so the embedding abstracts it as
a parameter (`ReSemantics`); the theorems about `validate_url` below hold
for every instantiation, in particular for the runtime's actual tables.
The ASCII fragment, on which all the tables agree, is provided as a
concrete instantiation for evaluation at concrete inputs. -/

/-- Character-level semantics supplied by the external `re` engine:
`chrEq pat c` decides whether input character `c` matches the pattern
literal `pat` under IGNORECASE, and `wordChar c` decides membership in
the class `\w`. -/
structure ReSemantics where
  chrEq : Char → Char → Bool
  wordChar : Char → Bool

/-- Regex fragments appearing in the plugin's `url_patterns`. -/
inductive Regex where
  | eps : Regex
  | ch : Char → Regex
  | seq : Regex → Regex → Regex
  | opt : Regex → Regex
  | plusCls : (Char → Bool) → Regex

/-- Rest-of-input possibilities after `[p]+` consumed one or more chars. -/
def plusRem (p : Char → Bool) : List Char → List (List Char)
  | [] => []
  | c :: rest => if p c then rest :: plusRem p rest else []

/-- All possible rests of the input after matching `r` at its front. -/
def remainders (sem : ReSemantics) : Regex → List Char → List (List Char)
  | .eps, s => [s]
  | .ch _, [] => []
  | .ch pat, c :: rest => if sem.chrEq pat c then [rest] else []
  | .seq a b, s => (remainders sem a s).foldr (fun t acc => remainders sem b t ++ acc) []
  | .opt a, s => s :: remainders sem a s
  | .plusCls p, s => plusRem p s

/-- Python `re.match(pattern, url, re.IGNORECASE)` viewed as a Bool:
does the pattern match some prefix of the input? -/
def reMatch (sem : ReSemantics) (r : Regex) (s : String) : Bool :=
  !(remainders sem r s.data).isEmpty

/-- Literal regex text. -/
def lit (s : String) : Regex :=
  s.data.foldr (fun c r => .seq (.ch c) r) .eps

/-- The character class `[\w-]`. -/
def wordDash (sem : ReSemantics) (c : Char) : Bool :=
  sem.wordChar c || c = '-'

/-- `https?://` -/
def httpPrefix : Regex :=
  .seq (lit "http") (.seq (.opt (.ch 's')) (lit "://"))

/-- `(www\.)?` -/
def optWww : Regex :=
  .opt (lit "www.")

/-- `^https?://(www\.)?youtube\.com/watch\?v=[\w-]+` -/
def patWatch (sem : ReSemantics) : Regex :=
  .seq httpPrefix (.seq optWww (.seq (lit "youtube.com/watch?v=") (.plusCls (wordDash sem))))

/-- `^https?://(www\.)?youtube\.com/playlist\?list=[\w-]+` -/
def patPlaylist (sem : ReSemantics) : Regex :=
  .seq httpPrefix (.seq optWww (.seq (lit "youtube.com/playlist?list=") (.plusCls (wordDash sem))))

/-- `^https?://youtu\.be/[\w-]+` -/
def patShortLink (sem : ReSemantics) : Regex :=
  .seq httpPrefix (.seq (lit "youtu.be/") (.plusCls (wordDash sem)))

/-- `^https?://(www\.)?youtube\.com/shorts/[\w-]+` -/
def patShorts (sem : ReSemantics) : Regex :=
  .seq httpPrefix (.seq optWww (.seq (lit "youtube.com/shorts/") (.plusCls (wordDash sem))))

/-- `^https?://music\.youtube\.com/watch\?v=[\w-]+` -/
def patMusic (sem : ReSemantics) : Regex :=
  .seq httpPrefix (.seq (lit "music.youtube.com/watch?v=") (.plusCls (wordDash sem)))

/-- The plugin's `url_patterns`, in declaration order. -/
def url_patterns (sem : ReSemantics) : List Regex :=
  [patWatch sem, patPlaylist sem, patShortLink sem, patShorts sem, patMusic sem]

/-- `YouTubeConverter.can_handle`: check if URL is a YouTube URL. -/
def can_handle (sem : ReSemantics) (url : String) : Bool :=
  (url_patterns sem).any (fun pattern => reMatch sem pattern url)

/-- `YouTubeConverter.validate_url`: validate YouTube URL format. -/
def validate_url (sem : ReSemantics) (url : String) : Bool × String :=
  if url = "" then (false, "URL cannot be empty")
  else if can_handle sem url then (true, "")
  else (false, "Invalid YouTube URL format: " ++ url)

/-- The ASCII fragment of the `re` engine's character tables: ASCII case
folding for IGNORECASE and the ASCII word characters for `\w`.  On ASCII
input every instantiation of `ReSemantics` drawn from the runtime's
tables agrees with this one. -/
def asciiReSemantics : ReSemantics :=
  { chrEq := fun pat c => pat.toLower = c.toLower,
    wordChar := fun c => c.isAlphanum || c = '_' }

/-! ## `tubetracks_gui.py`: the batch worker `App._run_worker`

`_run_worker` is always started by `App._start` with the options
dictionary produced by `App._collect_options`, which binds every key the
worker reads, so the initial `KeyError` branch is unreachable in a batch
run and the model starts at the per-URL loop.  The backend call
`downloader.download_audio` and the exceptions it may raise are abstracted
by an oracle giving, for each URL index, either a returned result or a
raised fault; the cooperative cancellation flag is a function of the loop
index at which `is_set()` is polled.  Queue traffic is reified as the list
of messages put by the worker (the per-fault diagnostic log lines and the
hook-driven progress messages emitted from inside the backend call are
elided, as they are not `status`/`log`-shaped worker puts that any counted
message type depends on). -/

/-- Modelled from the spec: the closed `ErrorCode` set declared in the
backend module `downloader.py`, which is not among the sources. -/
inductive ErrorCode where
  | NONE : ErrorCode
  | NETWORK_ERROR : ErrorCode
  | PERMISSION_ERROR : ErrorCode
  | TIMEOUT_ERROR : ErrorCode
  | FORBIDDEN_ERROR : ErrorCode
  | CANCELLED : ErrorCode
  | UNKNOWN_ERROR : ErrorCode
deriving DecidableEq

/-- Modelled from the spec: the `DownloadResult` record declared in the
backend module `downloader.py`, which is not among the sources; fields as
in the specification's data model, with the defaults used by the GUI's
constructor calls. -/
structure DownloadResult where
  url : String
  success : Bool
  output_path : Option String := none
  title : Option String := none
  error_code : ErrorCode
  error_message : Option String := none
deriving DecidableEq

/-- An exception escaping `downloader.download_audio`, split by the four
`except` clauses of `_run_worker` (type name and `str(e)` for the
catch-all clause). -/
inductive WorkerFault where
  | permissionError : String → WorkerFault
  | connectionError : String → WorkerFault
  | timeoutError : String → WorkerFault
  | otherError : String → String → WorkerFault
deriving DecidableEq

/-- The `DownloadResult` each `except` clause of `_run_worker` builds. -/
def faultResult (url : String) : WorkerFault → DownloadResult
  | .permissionError m =>
    { url := url, success := false, error_code := .PERMISSION_ERROR,
      error_message := some ("Permission denied: " ++ m) }
  | .connectionError m =>
    { url := url, success := false, error_code := .NETWORK_ERROR,
      error_message := some ("Network error: " ++ m) }
  | .timeoutError m =>
    { url := url, success := false, error_code := .TIMEOUT_ERROR,
      error_message := some ("Download timed out: " ++ m) }
  | .otherError n m =>
    { url := url, success := false, error_code := .UNKNOWN_ERROR,
      error_message := some ("Unexpected error: " ++ n ++ ": " ++ m) }

/-- The fault-class-to-ErrorCode mapping the specification prescribes for
the worker boundary. -/
def faultCode : WorkerFault → ErrorCode
  | .permissionError _ => .PERMISSION_ERROR
  | .connectionError _ => .NETWORK_ERROR
  | .timeoutError _ => .TIMEOUT_ERROR
  | .otherError _ _ => .UNKNOWN_ERROR

/-- The result the loop body holds after the `try`/`except` block for the
URL at index `i`. -/
def attemptResult (url : String) : Except WorkerFault DownloadResult → DownloadResult
  | .ok r => r
  | .error f => faultResult url f

/-- A message put on the worker-to-UI queue (`self._queue`). -/
inductive QMsg where
  | status : String → QMsg
  | log : String → QMsg
  | result : DownloadResult → Nat → Nat → QMsg
  | cancelled : QMsg
  | done : QMsg
deriving DecidableEq

/-- The per-URL loop of `_run_worker`, from URL index `i` on.  `outcome j`
is what `downloader.download_audio` did for the URL at index `j`;
`cancelSet j` is the value of `self._cancel_event.is_set()` polled at the
top of iteration `j`. -/
def workerLoop (outcome : Nat → Except WorkerFault DownloadResult)
    (cancelSet : Nat → Bool) (total : Nat) : Nat → List String → List QMsg
  | _, [] => [QMsg.done]
  | i, url :: rest =>
    if cancelSet i then [QMsg.cancelled]
    else
      QMsg.status ("Processing " ++ toString (i + 1) ++ "/" ++ toString total)
        :: QMsg.log ("→ " ++ url)
        :: QMsg.result (attemptResult url (outcome i)) (i + 1) total
        :: (if (attemptResult url (outcome i)).error_code = ErrorCode.CANCELLED then [QMsg.cancelled]
            else workerLoop outcome cancelSet total (i + 1) rest)

/-- `App._run_worker` on a batch of URLs. -/
def run_worker (urls : List String) (outcome : Nat → Except WorkerFault DownloadResult)
    (cancelSet : Nat → Bool) : List QMsg :=
  workerLoop outcome cancelSet urls.length 0 urls

/-- Is a queue message a per-URL `result` message? -/
def isResultMsg : QMsg → Bool
  | .result _ _ _ => true
  | _ => false

/-- Is a queue message one of the two terminal batch events? -/
def isTerminalMsg : QMsg → Bool
  | .cancelled => true
  | .done => true
  | _ => false

/-- Number of per-URL `result` messages in a queue trace. -/
def resultCount (msgs : List QMsg) : Nat :=
  (msgs.filter isResultMsg).length

/-- Number of terminal batch events (`done` or `cancelled`) in a trace. -/
def terminalCount (msgs : List QMsg) : Nat :=
  (msgs.filter isTerminalMsg).length

/-- Number of `result` messages whose result carries `ErrorCode.CANCELLED`. -/
def cancelledResultCount (msgs : List QMsg) : Nat :=
  (msgs.filter (fun m =>
    match m with
    | .result r _ _ => decide (r.error_code = ErrorCode.CANCELLED)
    | _ => false)).length

/-- Is a queue message the batch-level `cancelled` event? -/
def isCancelledMsg : QMsg → Bool
  | .cancelled => true
  | _ => false

/-- Is a queue message the batch-level `done` event? -/
def isDoneMsg : QMsg → Bool
  | .done => true
  | _ => false

/-- Number of batch-level `cancelled` events in a trace. -/
def cancelledEventCount (msgs : List QMsg) : Nat :=
  (msgs.filter isCancelledMsg).length

/-- Number of batch-level `done` events in a trace. -/
def doneEventCount (msgs : List QMsg) : Nat :=
  (msgs.filter isDoneMsg).length

/-- The results carried by the `result` messages of a trace, in order. -/
def resultsOf : List QMsg → List DownloadResult
  | [] => []
  | .result r _ _ :: rest => r :: resultsOf rest
  | _ :: rest => resultsOf rest

/-- One `DownloadResult` per submitted URL, in submission order, as the
loop would compute them starting at index `i` with no early exit. -/
def expectedResults (outcome : Nat → Except WorkerFault DownloadResult) :
    Nat → List String → List DownloadResult
  | _, [] => []
  | i, url :: rest => attemptResult url (outcome i) :: expectedResults outcome (i + 1) rest

/-! ## `tubetracks_gui.py`: `App._collect_options` (concurrency clamp) -/

/-- The concurrency-bound validation of `App._collect_options`: the input
is the result of Python's `int(...)` on the spinbox value (`none` when
`int` raised, i.e. the value was unparsable). -/
def collect_concurrent_downloads : Option Int → Int
  | none => 1
  | some n => if n < 1 then 1 else if n > 5 then 5 else n

/-! ## `tubetracks_gui.py`: `App._handle_result` (failure accounting) -/

/-- The `self._run_errors` accounting slice of `App._handle_result`: how
one handled result updates the run's error list. -/
def handle_result_errors (runErrors : List (String × Option String))
    (r : DownloadResult) : List (String × Option String) :=
  if r.success then runErrors
  else runErrors ++ [((if r.url = "" then "Unknown URL" else r.url), r.error_message)]

/-! ## Spec-side classification predicates (for C3) -/

/-- The message indicates an HTTP 403-class block. -/
abbrev indicates403Class (m : String) : Prop :=
  strContains (strLower m) "http error 403" = true ∨
  strContains (strLower m) "403: forbidden" = true ∨
  (strContains (strLower m) "http error" = true ∧ strContains (strLower m) "forbidden" = true)

/-- The message is the explicit "unable to download" denial the plugin
recognises. -/
abbrev unableToDownloadDenial (m : String) : Prop :=
  strContains (strLower m) "unable to download video data" = true

/-! ## Concrete example inputs used to instantiate the theorems below -/

/-- A two-URL batch. -/
def cexUrls : List String := ["https://youtu.be/first", "https://youtu.be/second"]

/-- A backend oracle whose every call returns a successful result. -/
def cexOutcome : Nat → Except WorkerFault DownloadResult := fun _ =>
  Except.ok { url := "https://youtu.be/first", success := true, error_code := ErrorCode.NONE }

/-- A cancellation flag observed set from the second loop iteration on. -/
def cexCancelAfterOne : Nat → Bool := fun i => decide (1 ≤ i)

/-- A one-URL batch. -/
def c4Urls : List String := ["https://youtu.be/x"]

/-- A backend oracle whose every call raises an unanticipated exception. -/
def c4Outcome : Nat → Except WorkerFault DownloadResult := fun _ =>
  Except.error (WorkerFault.otherError "ValueError" "boom")

/-- A `ydl.download` call that returns without raising and without any
`finished` hook firing (skip-existing / archive deduplication hit). -/
def skipAttempt : AttemptResult := { raised := none, anyFinished := false, lastFile := none }

/-- The skipped outcome as a backend `DownloadResult`, per the
specification's skip contract (success=false, distinguished reason). -/
def skipResult : DownloadResult :=
  { url := "https://youtu.be/skipped", success := false, error_code := ErrorCode.NONE,
    error_message := some skippedMessage }

/-- A `ydl.download` call raising a 403-class error. -/
def forbiddenRaise : AttemptResult :=
  { raised := some "ERROR: unable to download video data: HTTP Error 403: Forbidden",
    anyFinished := false, lastFile := none }

/-- A `ydl.download` call raising a non-403-class error. -/
def plainRaise : AttemptResult :=
  { raised := some "ERROR: This video is unavailable", anyFinished := false, lastFile := none }

/-- A nested header group carried by an example base option dictionary. -/
def exBaseHeaders : YDict :=
  [("User-Agent", .str "yt-dlp"), ("X-Custom", .str "keep")]

/-- An example base option dictionary with a nested `http_headers` group. -/
def exBaseOpts : YDict :=
  [("format", .str "bestaudio/best"), ("http_headers", .dict exBaseHeaders)]

/-! ## Helper lemmas: association-list dictionaries -/

theorem lookupKey_setKey_self (m : YDict) (key : String) (v : YVal) :
    lookupKey (setKey m key v) key = some v := by
  induction m with
  | nil => simp [setKey, lookupKey]
  | cons kv rest ih =>
    obtain ⟨k, w⟩ := kv
    by_cases hk : k = key
    · simp [setKey, hk, lookupKey]
    · simp [setKey, hk, lookupKey, ih]

theorem lookupKey_setKey_ne (m : YDict) (key k : String) (v : YVal) (h : key ≠ k) :
    lookupKey (setKey m key v) k = lookupKey m k := by
  induction m with
  | nil => simp [setKey, lookupKey, h]
  | cons kv rest ih =>
    obtain ⟨k0, w⟩ := kv
    by_cases hk : k0 = key
    · subst hk
      simp [setKey, lookupKey, h]
    · simp [setKey, hk, lookupKey, ih]

theorem lookupKey_eq_none_of_not_mem (m : YDict) (k : String)
    (h : k ∉ m.map Prod.fst) : lookupKey m k = none := by
  induction m with
  | nil => rfl
  | cons kv rest ih =>
    obtain ⟨k0, w⟩ := kv
    simp only [List.map_cons, List.mem_cons] at h
    push_neg at h
    have hne : ¬ k0 = k := fun hh => h.1 hh.symm
    simp [lookupKey, hne, ih h.2]

theorem lookupKey_updateAll (k : String) :
    ∀ (extra base : YDict), (extra.map Prod.fst).Nodup →
      lookupKey (updateAll base extra) k =
        (match lookupKey extra k with
         | some v => some v
         | none => lookupKey base k) := by
  intro extra
  induction extra with
  | nil => intro base _; rfl
  | cons kv rest ih =>
    intro base hnd
    obtain ⟨k0, v0⟩ := kv
    simp only [List.map_cons, List.nodup_cons] at hnd
    have hstep : updateAll base ((k0, v0) :: rest) = updateAll (setKey base k0 v0) rest := rfl
    rw [hstep, ih (setKey base k0 v0) hnd.2]
    by_cases hk : k0 = k
    · subst hk
      have hrest : lookupKey rest k0 = none :=
        lookupKey_eq_none_of_not_mem rest k0 hnd.1
      simp [lookupKey, hrest, lookupKey_setKey_self]
    · simp [lookupKey, hk, lookupKey_setKey_ne base k0 k v0 hk]

theorem lookupKey_mergeStep_self (m : YDict) (key : String) (v : YVal) :
    lookupKey (mergeStep m key v) key = some (mergeStepVal m key v) := by
  unfold mergeStep mergeStepVal
  split
  · split
    · apply lookupKey_setKey_self
    · apply lookupKey_setKey_self
  · apply lookupKey_setKey_self

theorem lookupKey_mergeStep_ne (m : YDict) (key k : String) (v : YVal) (h : key ≠ k) :
    lookupKey (mergeStep m key v) k = lookupKey m k := by
  unfold mergeStep
  split
  · split
    · apply lookupKey_setKey_ne _ _ _ _ h
    · apply lookupKey_setKey_ne _ _ _ _ h
  · apply lookupKey_setKey_ne _ _ _ _ h

theorem mergeStepVal_congr (m1 m2 : YDict) (k : String) (v : YVal)
    (h : lookupKey m1 k = lookupKey m2 k) :
    mergeStepVal m1 k v = mergeStepVal m2 k v := by
  unfold mergeStepVal
  rw [h]

theorem lookupKey_merge_ydl_opts (k : String) :
    ∀ (extra base : YDict), (extra.map Prod.fst).Nodup →
      lookupKey (merge_ydl_opts base extra) k =
        (match lookupKey extra k with
         | some v => some (mergeStepVal base k v)
         | none => lookupKey base k) := by
  intro extra
  induction extra with
  | nil => intro base _; rfl
  | cons kv rest ih =>
    intro base hnd
    obtain ⟨k0, v0⟩ := kv
    simp only [List.map_cons, List.nodup_cons] at hnd
    have hstep : merge_ydl_opts base ((k0, v0) :: rest) =
        merge_ydl_opts (mergeStep base k0 v0) rest := rfl
    rw [hstep, ih (mergeStep base k0 v0) hnd.2]
    by_cases hk : k0 = k
    · subst hk
      have hrest : lookupKey rest k0 = none :=
        lookupKey_eq_none_of_not_mem rest k0 hnd.1
      simp [lookupKey, hrest, lookupKey_mergeStep_self]
    · have hlk : lookupKey (mergeStep base k0 v0) k = lookupKey base k :=
        lookupKey_mergeStep_ne base k0 k v0 hk
      cases hr : lookupKey rest k with
      | none => simp [lookupKey, hk, hr, hlk]
      | some v =>
        simp [lookupKey, hk, hr, mergeStepVal_congr _ _ k v hlk]

/-! ## Helper lemmas: the worker's queue trace -/

theorem terminalCount_status (s : String) (ms : List QMsg) :
    terminalCount (QMsg.status s :: ms) = terminalCount ms := rfl

theorem terminalCount_log (s : String) (ms : List QMsg) :
    terminalCount (QMsg.log s :: ms) = terminalCount ms := rfl

theorem terminalCount_result (r : DownloadResult) (c t : Nat) (ms : List QMsg) :
    terminalCount (QMsg.result r c t :: ms) = terminalCount ms := rfl

theorem resultCount_status (s : String) (ms : List QMsg) :
    resultCount (QMsg.status s :: ms) = resultCount ms := rfl

theorem resultCount_log (s : String) (ms : List QMsg) :
    resultCount (QMsg.log s :: ms) = resultCount ms := rfl

theorem resultCount_result (r : DownloadResult) (c t : Nat) (ms : List QMsg) :
    resultCount (QMsg.result r c t :: ms) = resultCount ms + 1 := rfl

theorem terminalCount_workerLoop (outcome : Nat → Except WorkerFault DownloadResult)
    (cancelSet : Nat → Bool) (total : Nat) :
    ∀ (urls : List String) (i : Nat),
      terminalCount (workerLoop outcome cancelSet total i urls) = 1 := by
  intro urls
  induction urls with
  | nil => intro i; rfl
  | cons url rest ih =>
    intro i
    simp only [workerLoop]
    split
    · rfl
    · rw [terminalCount_status, terminalCount_log, terminalCount_result]
      split
      · rfl
      · exact ih (i + 1)

theorem resultCount_workerLoop_le (outcome : Nat → Except WorkerFault DownloadResult)
    (cancelSet : Nat → Bool) (total : Nat) :
    ∀ (urls : List String) (i : Nat),
      resultCount (workerLoop outcome cancelSet total i urls) ≤ urls.length := by
  intro urls
  induction urls with
  | nil => intro i; exact Nat.le_refl 0
  | cons url rest ih =>
    intro i
    simp only [workerLoop, List.length_cons]
    split
    · exact Nat.zero_le _
    · rw [resultCount_status, resultCount_log, resultCount_result]
      split
      · exact Nat.le_add_left 1 rest.length
      · exact Nat.add_le_add_right (ih (i + 1)) 1

theorem resultsOf_workerLoop_noCancel (outcome : Nat → Except WorkerFault DownloadResult)
    (cancelSet : Nat → Bool) (total : Nat)
    (hcancel : ∀ j, cancelSet j = false) :
    ∀ (urls : List String) (i : Nat),
      (∀ r ∈ expectedResults outcome i urls, r.error_code ≠ ErrorCode.CANCELLED) →
      resultsOf (workerLoop outcome cancelSet total i urls) = expectedResults outcome i urls := by
  intro urls
  induction urls with
  | nil => intro i _; rfl
  | cons url rest ih =>
    intro i h
    have hr : (attemptResult url (outcome i)).error_code ≠ ErrorCode.CANCELLED := by
      apply h
      simp [expectedResults]
    simp only [workerLoop, hcancel i, Bool.false_eq_true, if_false, if_neg hr]
    simp only [resultsOf, expectedResults]
    refine congrArg _ ?_
    refine ih (i + 1) ?_
    intro r hrmem
    apply h
    simp [expectedResults, hrmem]

theorem resultsOf_workerLoop_cancelAt (outcome : Nat → Except WorkerFault DownloadResult)
    (cancelSet : Nat → Bool) (total : Nat) (k : Nat)
    (hk : cancelSet k = true) (hbefore : ∀ j, j < k → cancelSet j = false) :
    ∀ (urls : List String) (i : Nat),
      i ≤ k →
      (∀ r ∈ expectedResults outcome i (urls.take (k - i)), r.error_code ≠ ErrorCode.CANCELLED) →
      resultsOf (workerLoop outcome cancelSet total i urls) =
        expectedResults outcome i (urls.take (k - i)) := by
  intro urls
  induction urls with
  | nil => intro i _ _; simp [workerLoop, resultsOf, expectedResults]
  | cons url rest ih =>
    intro i hik h
    rcases Nat.eq_or_lt_of_le hik with heq | hlt
    · subst heq
      simp [workerLoop, hk, Nat.sub_self, resultsOf, expectedResults]
    · have hc : cancelSet i = false := hbefore i hlt
      have hki : k - i = (k - (i + 1)) + 1 := by omega
      rw [hki] at h ⊢
      simp only [List.take_succ_cons] at h ⊢
      have hr : (attemptResult url (outcome i)).error_code ≠ ErrorCode.CANCELLED := by
        apply h
        simp [expectedResults]
      simp only [workerLoop, hc, Bool.false_eq_true, if_false, if_neg hr]
      simp only [resultsOf, expectedResults]
      refine congrArg _ ?_
      refine ih (i + 1) (by omega) ?_
      intro r hrmem
      apply h
      simp [expectedResults, hrmem]

theorem expectedResults_mem (outcome : Nat → Except WorkerFault DownloadResult) :
    ∀ (urls : List String) (i : Nat) (r : DownloadResult),
      r ∈ expectedResults outcome i urls →
      ∃ j url, r = attemptResult url (outcome j) := by
  intro urls
  induction urls with
  | nil => intro i r h; simp [expectedResults] at h
  | cons url rest ih =>
    intro i r h
    simp only [expectedResults, List.mem_cons] at h
    rcases h with h | h
    · exact ⟨i, url, h⟩
    · exact ih (i + 1) r h

theorem faultResult_error_code (url : String) (f : WorkerFault) :
    (faultResult url f).error_code = faultCode f := by
  cases f <;> rfl

theorem faultCode_ne_cancelled (f : WorkerFault) :
    faultCode f ≠ ErrorCode.CANCELLED := by
  cases f <;> simp [faultCode]

theorem cancelledEventCount_status (s : String) (ms : List QMsg) :
    cancelledEventCount (QMsg.status s :: ms) = cancelledEventCount ms := rfl

theorem cancelledEventCount_log (s : String) (ms : List QMsg) :
    cancelledEventCount (QMsg.log s :: ms) = cancelledEventCount ms := rfl

theorem cancelledEventCount_result (r : DownloadResult) (c t : Nat) (ms : List QMsg) :
    cancelledEventCount (QMsg.result r c t :: ms) = cancelledEventCount ms := rfl

theorem doneEventCount_status (s : String) (ms : List QMsg) :
    doneEventCount (QMsg.status s :: ms) = doneEventCount ms := rfl

theorem doneEventCount_log (s : String) (ms : List QMsg) :
    doneEventCount (QMsg.log s :: ms) = doneEventCount ms := rfl

theorem doneEventCount_result (r : DownloadResult) (c t : Nat) (ms : List QMsg) :
    doneEventCount (QMsg.result r c t :: ms) = doneEventCount ms := rfl

theorem events_workerLoop_noCancel (outcome : Nat → Except WorkerFault DownloadResult)
    (cancelSet : Nat → Bool) (total : Nat)
    (hcancel : ∀ j, cancelSet j = false) :
    ∀ (urls : List String) (i : Nat),
      (∀ r ∈ expectedResults outcome i urls, r.error_code ≠ ErrorCode.CANCELLED) →
      doneEventCount (workerLoop outcome cancelSet total i urls) = 1 ∧
      cancelledEventCount (workerLoop outcome cancelSet total i urls) = 0 := by
  intro urls
  induction urls with
  | nil => intro i _; exact ⟨rfl, rfl⟩
  | cons url rest ih =>
    intro i h
    have hr : (attemptResult url (outcome i)).error_code ≠ ErrorCode.CANCELLED := by
      apply h
      simp [expectedResults]
    have h' : ∀ r ∈ expectedResults outcome (i + 1) rest,
        r.error_code ≠ ErrorCode.CANCELLED := by
      intro r hrmem
      apply h
      simp [expectedResults, hrmem]
    simp only [workerLoop, hcancel i, Bool.false_eq_true, if_false, if_neg hr]
    constructor
    · rw [doneEventCount_status, doneEventCount_log, doneEventCount_result]
      exact (ih (i + 1) h').1
    · rw [cancelledEventCount_status, cancelledEventCount_log, cancelledEventCount_result]
      exact (ih (i + 1) h').2

theorem events_workerLoop_cancelAt (outcome : Nat → Except WorkerFault DownloadResult)
    (cancelSet : Nat → Bool) (total : Nat) (k : Nat)
    (hk : cancelSet k = true) (hbefore : ∀ j, j < k → cancelSet j = false) :
    ∀ (urls : List String) (i : Nat),
      i ≤ k → k - i < urls.length →
      (∀ r ∈ expectedResults outcome i (urls.take (k - i)), r.error_code ≠ ErrorCode.CANCELLED) →
      cancelledEventCount (workerLoop outcome cancelSet total i urls) = 1 ∧
      doneEventCount (workerLoop outcome cancelSet total i urls) = 0 := by
  intro urls
  induction urls with
  | nil =>
    intro i _ hlen _
    simp at hlen
  | cons url rest ih =>
    intro i hik hlen h
    rcases Nat.eq_or_lt_of_le hik with heq | hlt
    · subst heq
      simp only [workerLoop, hk, if_true]
      exact ⟨rfl, rfl⟩
    · have hc : cancelSet i = false := hbefore i hlt
      have hki : k - i = (k - (i + 1)) + 1 := by omega
      rw [hki] at h
      simp only [List.take_succ_cons] at h
      have hr : (attemptResult url (outcome i)).error_code ≠ ErrorCode.CANCELLED := by
        apply h
        simp [expectedResults]
      have h' : ∀ r ∈ expectedResults outcome (i + 1) (rest.take (k - (i + 1))),
          r.error_code ≠ ErrorCode.CANCELLED := by
        intro r hrmem
        apply h
        simp [expectedResults, hrmem]
      have hlen' : k - (i + 1) < rest.length := by
        simp only [List.length_cons] at hlen
        omega
      have hrec := ih (i + 1) (by omega) hlen' h'
      simp only [workerLoop, hc, Bool.false_eq_true, if_false, if_neg hr]
      constructor
      · rw [cancelledEventCount_status, cancelledEventCount_log, cancelledEventCount_result]
        exact hrec.1
      · rw [doneEventCount_status, doneEventCount_log, doneEventCount_result]
        exact hrec.2


/-! ## Claim theorems -/

theorem download_trace (first second : AttemptResult) :
    (download first second).2 =
      (match first.raised with
       | none => [AttemptProfile.primary]
       | some e =>
         if is_forbidden_error (strip_ansi e) then
           [AttemptProfile.primary, AttemptProfile.fallback]
         else [AttemptProfile.primary]) := by
  cases hfr : first.raised with
  | none =>
    simp only [download, hfr]
    split <;> rfl
  | some e =>
    simp only [download, hfr]
    cases hf : is_forbidden_error (strip_ansi e) with
    | false => simp only [hf, Bool.false_eq_true, if_false]
    | true =>
      simp only [hf, if_true]
      cases h2 : second.raised with
      | none =>
        split
        all_goals try rfl
        all_goals split <;> rfl
      | some f => rfl

/-- Claim C2: a request whose first attempt fails with a non-403-class
message never uses the alternate profile; a request whose first attempt
fails 403-class performs exactly one retry with the alternate profile;
and no execution of `download` ever attempts the fallback profile more
than once. -/
theorem c2_single_fallback_escalation (first second : AttemptResult) :
    (∀ e, first.raised = some e → is_forbidden_error (strip_ansi e) = false →
      (download first second).2 = [AttemptProfile.primary]) ∧
    (∀ e, first.raised = some e → is_forbidden_error (strip_ansi e) = true →
      (download first second).2 = [AttemptProfile.primary, AttemptProfile.fallback]) ∧
    (download first second).2.count AttemptProfile.fallback ≤ 1 := by
  refine ⟨?_, ?_, ?_⟩
  · intro e he hf
    rw [download_trace, he]
    simp [hf]
  · intro e he hf
    rw [download_trace, he]
    simp [hf]
  · rw [download_trace]
    cases hfr : first.raised with
    | none => decide
    | some e =>
      show List.count AttemptProfile.fallback
          (if is_forbidden_error (strip_ansi e) then
            [AttemptProfile.primary, AttemptProfile.fallback]
          else [AttemptProfile.primary]) ≤ 1
      cases hf : is_forbidden_error (strip_ansi e) <;> decide

/-- Claim C3: for a failed first attempt the fallback decision is made by
classifying the ANSI-stripped raw message, and the classifier accepts a
message exactly when it indicates an HTTP 403-class block or the explicit
"unable to download" denial. -/
theorem c3_strip_then_classify (first second : AttemptResult) (e : String)
    (h : first.raised = some e) :
    ((download first second).2.contains AttemptProfile.fallback = true
        ↔ (indicates403Class (strip_ansi e) ∨ unableToDownloadDenial (strip_ansi e))) ∧
    (∀ m, is_forbidden_error m = true ↔ (indicates403Class m ∨ unableToDownloadDenial m)) := by
  have hiff : ∀ m, is_forbidden_error m = true ↔ (indicates403Class m ∨ unableToDownloadDenial m) := by
    intro m
    simp only [is_forbidden_error, indicates403Class, unableToDownloadDenial,
      Bool.or_eq_true, Bool.and_eq_true]
    tauto
  refine ⟨?_, hiff⟩
  rw [← hiff (strip_ansi e)]
  have htrace : (download first second).2.contains AttemptProfile.fallback
      = is_forbidden_error (strip_ansi e) := by
    rw [download_trace, h]
    show (if is_forbidden_error (strip_ansi e) then
        [AttemptProfile.primary, AttemptProfile.fallback]
      else [AttemptProfile.primary]).contains AttemptProfile.fallback
      = is_forbidden_error (strip_ansi e)
    cases hf : is_forbidden_error (strip_ansi e) <;> decide
  rw [htrace]

/-- Claim C7: when the first attempt fails 403-class and the fallback
attempt also fails, the remediation hint is appended to the returned
error message exactly when the fallback failure's stripped message is
again classified 403-class. -/
theorem c7_hint_iff_fallback_forbidden (first second : AttemptResult) (e f : String)
    (h1 : first.raised = some e) (hf : is_forbidden_error (strip_ansi e) = true)
    (h2 : second.raised = some f) :
    (is_forbidden_error (strip_ansi f) = true →
      (download first second).1 =
        (false, none,
          some ("YouTube download failed: " ++ (strip_ansi f ++ " (" ++ forbiddenHint ++ ")")))) ∧
    (is_forbidden_error (strip_ansi f) = false →
      (download first second).1 =
        (false, none, some ("YouTube download failed: " ++ strip_ansi f))) := by
  constructor <;> intro hff <;> simp [download, h1, hf, h2, hff]

/-- Witness for C2: a 403-class first failure escalates to exactly one
fallback attempt. -/
theorem c2_single_fallback_escalation_witness :
    (download forbiddenRaise skipAttempt).2 =
      [AttemptProfile.primary, AttemptProfile.fallback] :=
  (c2_single_fallback_escalation forbiddenRaise skipAttempt).2.1
    "ERROR: unable to download video data: HTTP Error 403: Forbidden" rfl (by decide)

/-- Witness for C3: a stripped message carrying the "unable to download
video data" denial makes the fallback profile be attempted. -/
theorem c3_strip_then_classify_witness :
    (download forbiddenRaise skipAttempt).2.contains AttemptProfile.fallback = true :=
  (c3_strip_then_classify forbiddenRaise skipAttempt
    "ERROR: unable to download video data: HTTP Error 403: Forbidden" rfl).1.mpr
    (Or.inr (by decide))

/-- Witness for C7: a 403-class fallback failure gets the remediation hint
appended. -/
theorem c7_hint_iff_fallback_forbidden_witness :
    (download forbiddenRaise forbiddenRaise).1 =
      (false, none,
        some ("YouTube download failed: " ++
          (strip_ansi "ERROR: unable to download video data: HTTP Error 403: Forbidden"
            ++ " (" ++ forbiddenHint ++ ")"))) :=
  (c7_hint_iff_fallback_forbidden forbiddenRaise forbiddenRaise
    "ERROR: unable to download video data: HTTP Error 403: Forbidden"
    "ERROR: unable to download video data: HTTP Error 403: Forbidden"
    rfl (by decide) rfl).1 (by decide)

/-- Claim C5: every batch run of the worker emits exactly one terminal
batch event, a single `done` or a single `cancelled`, never both. -/
theorem c5_single_terminal_batch_event (urls : List String)
    (outcome : Nat → Except WorkerFault DownloadResult) (cancelSet : Nat → Bool) :
    terminalCount (run_worker urls outcome cancelSet) = 1 :=
  terminalCount_workerLoop outcome cancelSet urls.length urls 0

/-- Counterexample for C1: with two submitted URLs and the cancellation
flag observed set from the second loop iteration on, the worker emits only
one per-URL result and no result at all (in particular no CANCELLED one)
for the not-yet-started second URL. -/
theorem c1_counterexample :
    cexUrls.length = 2 ∧
    resultCount (run_worker cexUrls cexOutcome cexCancelAfterOne) = 1 ∧
    cancelledResultCount (run_worker cexUrls cexOutcome cexCancelAfterOne) = 0 := by
  decide

/-- Claim C1 (amended): every URL whose processing starts before the
cancellation flag is observed yields exactly one terminal DownloadResult;
no URL ever yields more than one; when the flag is never observed set and
no outcome is CANCELLED, every submitted URL yields exactly one result
and the single terminal event is `done`; and when the flag is first
observed at loop index k, exactly the first k URLs yield one result each,
the remaining URLs yield none, and a single batch-cancelled event (and no
`done` event) is emitted instead. -/
theorem c1_one_result_per_started_url (urls : List String)
    (outcome : Nat → Except WorkerFault DownloadResult) (cancelSet : Nat → Bool) :
    resultCount (run_worker urls outcome cancelSet) ≤ urls.length ∧
    terminalCount (run_worker urls outcome cancelSet) = 1 ∧
    ((∀ j, cancelSet j = false) →
      (∀ r ∈ expectedResults outcome 0 urls, r.error_code ≠ ErrorCode.CANCELLED) →
      resultsOf (run_worker urls outcome cancelSet) = expectedResults outcome 0 urls ∧
      doneEventCount (run_worker urls outcome cancelSet) = 1 ∧
      cancelledEventCount (run_worker urls outcome cancelSet) = 0) ∧
    (∀ k, k < urls.length → cancelSet k = true → (∀ j, j < k → cancelSet j = false) →
      (∀ r ∈ expectedResults outcome 0 (urls.take k), r.error_code ≠ ErrorCode.CANCELLED) →
      resultsOf (run_worker urls outcome cancelSet) = expectedResults outcome 0 (urls.take k) ∧
      cancelledEventCount (run_worker urls outcome cancelSet) = 1 ∧
      doneEventCount (run_worker urls outcome cancelSet) = 0) := by
  refine ⟨resultCount_workerLoop_le outcome cancelSet urls.length urls 0,
    terminalCount_workerLoop outcome cancelSet urls.length urls 0, ?_, ?_⟩
  · intro hc hr
    have hev := events_workerLoop_noCancel outcome cancelSet urls.length hc urls 0 hr
    exact ⟨resultsOf_workerLoop_noCancel outcome cancelSet urls.length hc urls 0 hr,
      hev.1, hev.2⟩
  · intro k hklen hk hb hr
    have hev := events_workerLoop_cancelAt outcome cancelSet urls.length k hk hb urls 0
      (Nat.zero_le k) hklen hr
    exact ⟨resultsOf_workerLoop_cancelAt outcome cancelSet urls.length k hk hb urls 0
      (Nat.zero_le k) hr, hev.1, hev.2⟩

/-- Witness for the amended C1: an uncancelled two-URL run yields exactly
the two expected results and terminates with `done`; the same batch with
the flag observed from the second iteration on yields exactly the first
expected result and terminates with a single `cancelled` event and no
`done`. -/
theorem c1_one_result_per_started_url_witness :
    (resultsOf (run_worker cexUrls cexOutcome (fun _ => false)) =
        expectedResults cexOutcome 0 cexUrls ∧
      doneEventCount (run_worker cexUrls cexOutcome (fun _ => false)) = 1 ∧
      cancelledEventCount (run_worker cexUrls cexOutcome (fun _ => false)) = 0) ∧
    (resultsOf (run_worker cexUrls cexOutcome cexCancelAfterOne) =
        expectedResults cexOutcome 0 (cexUrls.take 1) ∧
      cancelledEventCount (run_worker cexUrls cexOutcome cexCancelAfterOne) = 1 ∧
      doneEventCount (run_worker cexUrls cexOutcome cexCancelAfterOne) = 0) :=
  ⟨(c1_one_result_per_started_url cexUrls cexOutcome (fun _ => false)).2.2.1
      (fun _ => rfl) (by decide),
   (c1_one_result_per_started_url cexUrls cexOutcome cexCancelAfterOne).2.2.2 1
      (by decide) rfl
      (by
        intro j hj
        simp only [cexCancelAfterOne, decide_eq_false_iff_not]
        omega)
      (by decide)⟩

/-- Claim C4: every exception raised by the backend call for a single URL
is converted at the worker boundary into a DownloadResult whose ErrorCode
matches the fault class (PermissionError, ConnectionError, TimeoutError,
anything else), and such a fault never aborts the batch: every submitted
URL still yields its own result. -/
theorem c4_fault_converted_batch_continues (urls : List String)
    (outcome : Nat → Except WorkerFault DownloadResult) (cancelSet : Nat → Bool)
    (hcancel : ∀ j, cancelSet j = false)
    (hok : ∀ i r, outcome i = Except.ok r → r.error_code ≠ ErrorCode.CANCELLED) :
    (∀ url f, (faultResult url f).success = false ∧
      (faultResult url f).error_code = faultCode f) ∧
    resultsOf (run_worker urls outcome cancelSet) = expectedResults outcome 0 urls := by
  constructor
  · intro url f
    exact ⟨by cases f <;> rfl, faultResult_error_code url f⟩
  · apply resultsOf_workerLoop_noCancel outcome cancelSet urls.length hcancel urls 0
    intro r hr
    obtain ⟨j, url, rfl⟩ := expectedResults_mem outcome urls 0 r hr
    cases ho : outcome j with
    | ok r' =>
      exact hok j r' ho
    | error f =>
      show (faultResult url f).error_code ≠ ErrorCode.CANCELLED
      rw [faultResult_error_code]
      exact faultCode_ne_cancelled f

/-- Witness for C4: a one-URL batch whose backend call raises an
unanticipated exception still yields exactly its converted result. -/
theorem c4_fault_converted_batch_continues_witness :
    resultsOf (run_worker c4Urls c4Outcome (fun _ => false)) =
      expectedResults c4Outcome 0 c4Urls :=
  (c4_fault_converted_batch_continues c4Urls c4Outcome (fun _ => false)
    (fun _ => rfl) (fun _ _ h => Except.noConfusion h)).2

/-- Counterexample for C6: a skip-existing/archive hit is reported as
success=false with the distinguished skip reason, yet `App._handle_result`
appends it to `self._run_errors`, counting it among the run's failures. -/
theorem c6_counterexample :
    (download skipAttempt skipAttempt).1 = (false, none, some skippedMessage) ∧
    handle_result_errors [] skipResult =
      [("https://youtu.be/skipped", some skippedMessage)] ∧
    handle_result_errors [] skipResult ≠ [] := by
  refine ⟨rfl, by decide, by decide⟩

/-- Claim C6 (amended): when skip-existing or archive deduplication makes
an attempt produce no new files, the plugin reports success=false with the
distinguished non-error "Skipped" reason; however the GUI's result handler
appends every success=false result, the skipped ones included, to the
run's error list, so skipped outcomes are counted among the reported
failures. -/
theorem c6_skip_reported_but_counted (first second : AttemptResult)
    (h1 : first.raised = none) (h2 : first.anyFinished = false) :
    (download first second).1 = (false, none, some skippedMessage) ∧
    (∀ (errs : List (String × Option String)) (r : DownloadResult), r.success = false →
      handle_result_errors errs r =
        errs ++ [((if r.url = "" then "Unknown URL" else r.url), r.error_message)]) := by
  constructor
  · simp [download, h1, h2]
  · intro errs r hr
    simp [handle_result_errors, hr]

/-- Witness for the amended C6. -/
theorem c6_skip_reported_but_counted_witness :
    (download skipAttempt skipAttempt).1 = (false, none, some skippedMessage) ∧
    handle_result_errors [("https://youtu.be/ok", none)] skipResult =
      [("https://youtu.be/ok", none), ("https://youtu.be/skipped", some skippedMessage)] := by
  refine ⟨(c6_skip_reported_but_counted skipAttempt skipAttempt rfl rfl).1, ?_⟩
  rw [(c6_skip_reported_but_counted skipAttempt skipAttempt rfl rfl).2
    [("https://youtu.be/ok", none)] skipResult rfl]
  decide

/-- Claim C8: the configured concurrency bound is clamped to 1–5 by
`App._collect_options`: integers below 1 become 1, integers above 5 become
5, in-range values pass through unchanged, and an unparsable value
defaults to 1; the resulting bound always lies in 1–5. -/
theorem c8_concurrency_clamped (v : Option Int) :
    collect_concurrent_downloads none = 1 ∧
    (∀ n : Int, n < 1 → collect_concurrent_downloads (some n) = 1) ∧
    (∀ n : Int, 5 < n → collect_concurrent_downloads (some n) = 5) ∧
    (∀ n : Int, 1 ≤ n → n ≤ 5 → collect_concurrent_downloads (some n) = n) ∧
    1 ≤ collect_concurrent_downloads v ∧ collect_concurrent_downloads v ≤ 5 := by
  refine ⟨rfl, ?_, ?_, ?_, ?_⟩
  · intro n h
    simp only [collect_concurrent_downloads]
    rw [if_pos h]
  · intro n h
    simp only [collect_concurrent_downloads]
    rw [if_neg (by omega), if_pos (by omega)]
  · intro n h1 h5
    simp only [collect_concurrent_downloads]
    rw [if_neg (by omega), if_neg (by omega)]
  · rcases v with _ | n
    · exact ⟨by decide, by decide⟩
    · simp only [collect_concurrent_downloads]
      constructor <;> split_ifs <;> omega

/-- Witness for C8: 99 is clamped to 5, 0 to 1, 3 passes through. -/
theorem c8_concurrency_clamped_witness :
    collect_concurrent_downloads (some 99) = 5 ∧
    collect_concurrent_downloads (some 0) = 1 ∧
    collect_concurrent_downloads (some 3) = 3 :=
  ⟨(c8_concurrency_clamped (some 99)).2.2.1 99 (by norm_num),
   (c8_concurrency_clamped (some 0)).2.1 0 (by norm_num),
   (c8_concurrency_clamped (some 3)).2.2.2.1 3 (by norm_num) (by norm_num)⟩

theorem mergeStepVal_eq_self (base : YDict) (k : String) (v : YVal)
    (h : ∀ e2 e1, v = YVal.dict e2 → lookupKey base k = some (YVal.dict e1) → False) :
    mergeStepVal base k v = v := by
  unfold mergeStepVal
  split
  · rcases v with s | l | e2 <;> cases hb : lookupKey base k with
    | none => rfl
    | some w =>
      cases w with
      | str s1 => rfl
      | strList l1 => rfl
      | dict e1 =>
        first
        | rfl
        | exact (h e2 e1 rfl hb).elim
  · rfl

/-- Claim C9: the fallback attempt's options are the base options merged
with the overlay: for the nested groups `extractor_args`/`http_headers`
present as dictionaries in both, the merged value is the key-wise merge in
which base sub-keys absent from the overlay are preserved and the overlay
wins on conflicting sub-keys; every other binding is taken from the
overlay when present and from the base otherwise. -/
theorem c9_fallback_options_merged (base extra : YDict) (k : String)
    (hextra : (extra.map Prod.fst).Nodup) :
    (lookupKey extra k = none →
      lookupKey (merge_ydl_opts base extra) k = lookupKey base k) ∧
    (∀ v, lookupKey extra k = some v → ¬(k = "extractor_args" ∨ k = "http_headers") →
      lookupKey (merge_ydl_opts base extra) k = some v) ∧
    (∀ e1 e2, (k = "extractor_args" ∨ k = "http_headers") →
      lookupKey extra k = some (YVal.dict e2) →
      lookupKey base k = some (YVal.dict e1) →
      lookupKey (merge_ydl_opts base extra) k = some (YVal.dict (updateAll e1 e2)) ∧
      ((e2.map Prod.fst).Nodup → ∀ sk,
        (lookupKey e2 sk = none → lookupKey (updateAll e1 e2) sk = lookupKey e1 sk) ∧
        (∀ sv, lookupKey e2 sk = some sv → lookupKey (updateAll e1 e2) sk = some sv))) ∧
    (∀ v, lookupKey extra k = some v →
      (∀ e2 e1, v = YVal.dict e2 → lookupKey base k = some (YVal.dict e1) → False) →
      lookupKey (merge_ydl_opts base extra) k = some v) := by
  have hmain := lookupKey_merge_ydl_opts k extra base hextra
  refine ⟨?_, ?_, ?_, ?_⟩
  · intro h
    rw [hmain, h]
  · intro v hv hk
    rw [hmain, hv]
    show some (mergeStepVal base k v) = some v
    rw [show mergeStepVal base k v = v from by unfold mergeStepVal; rw [if_neg hk]]
  · intro e1 e2 hk hv hb
    constructor
    · rw [hmain, hv]
      show some (mergeStepVal base k (YVal.dict e2)) = some (YVal.dict (updateAll e1 e2))
      unfold mergeStepVal
      rw [if_pos hk, hb]
    · intro hnd sk
      have hsub := lookupKey_updateAll sk e2 e1 hnd
      constructor
      · intro hn
        rw [hsub, hn]
      · intro sv hsv
        rw [hsub, hsv]
  · intro v hv hno
    rw [hmain, hv]
    show some (mergeStepVal base k v) = some v
    rw [mergeStepVal_eq_self base k v hno]

/-- Witness for C9: merging the plugin's fallback overlay over an example
base option dictionary merges the `http_headers` group key-wise, keeping
the base-only sub-key. -/
theorem c9_fallback_options_merged_witness :
    lookupKey (merge_ydl_opts exBaseOpts fallbackOverlay) "http_headers" =
      some (YVal.dict (updateAll exBaseHeaders fallbackHttpHeaders)) ∧
    lookupKey (updateAll exBaseHeaders fallbackHttpHeaders) "X-Custom" =
      some (YVal.str "keep") := by
  have h := (c9_fallback_options_merged exBaseOpts fallbackOverlay "http_headers"
    (by decide)).2.2.1 exBaseHeaders fallbackHttpHeaders (Or.inr rfl) rfl rfl
  refine ⟨h.1, ?_⟩
  have h2 := (h.2 (by decide) "X-Custom").1 (by rfl)
  rw [h2]
  rfl

/-- Claim C10: `validate_url` is total and never raises; it answers
`(false, "URL cannot be empty")` exactly when the URL is empty, `(true,
"")` exactly when the URL is non-empty and some pattern of `url_patterns`
matches it case-insensitively at the start of the string, and otherwise a
`(false, m)` whose message names the invalid URL. -/
theorem c10_validate_url_total (sem : ReSemantics) (url : String) :
    (validate_url sem url = (false, "URL cannot be empty") ↔ url = "") ∧
    (validate_url sem url = (true, "") ↔
      (url ≠ "" ∧ ∃ p ∈ url_patterns sem, reMatch sem p url = true)) ∧
    (url ≠ "" → can_handle sem url = false →
      validate_url sem url = (false, "Invalid YouTube URL format: " ++ url)) := by
  have hch : can_handle sem url = true ↔ ∃ p ∈ url_patterns sem, reMatch sem p url = true := by
    simp [can_handle, List.any_eq_true]
  refine ⟨?_, ?_, ?_⟩
  · constructor
    · intro h
      by_contra hne
      unfold validate_url at h
      rw [if_neg hne] at h
      by_cases hc : can_handle sem url = true
      · rw [if_pos hc] at h
        simp at h
      · rw [if_neg hc] at h
        have hmsg := congrArg Prod.snd h
        have hlen := congrArg String.length hmsg
        rw [String.length_append] at hlen
        have e1 : ("Invalid YouTube URL format: " : String).length = 28 := by decide
        have e2 : ("URL cannot be empty" : String).length = 19 := by decide
        rw [e1, e2] at hlen
        omega
    · intro h
      subst h
      rfl
  · constructor
    · intro h
      unfold validate_url at h
      by_cases he : url = ""
      · rw [if_pos he] at h
        simp at h
      · rw [if_neg he] at h
        by_cases hc : can_handle sem url = true
        · exact ⟨he, hch.mp hc⟩
        · rw [if_neg hc] at h
          simp at h
    · rintro ⟨hne, hex⟩
      unfold validate_url
      rw [if_neg hne, if_pos (hch.mpr hex)]
  · intro hne hc
    unfold validate_url
    rw [if_neg hne, if_neg (by simp [hc])]

/-- Witness for C10: under the ASCII instantiation of the engine tables a
well-formed short link validates, matching the `youtu.be` pattern. -/
theorem c10_validate_url_total_witness :
    validate_url asciiReSemantics "https://youtu.be/dQw4w9WgXcQ" = (true, "") :=
  (c10_validate_url_total asciiReSemantics "https://youtu.be/dQw4w9WgXcQ").2.1.mpr
    ⟨by decide, patShortLink asciiReSemantics, by simp [url_patterns], by decide⟩
